import Mathlib

set_option maxRecDepth 8000

/-!
Shallow embedding of the bufio encoding/writer library (src/encoding.ts,
src/writer.ts, src/staticwriter.ts, src/sizewriter.ts).

Modelling conventions:
* A Node `Buffer` is a `List Nat` whose entries are bytes (< 256).  Indexed
  assignment on a `Buffer` coerces the stored value to a byte and silently
  ignores writes at out-of-range indices; this is `List.set` composed with
  `% 256` (`setByte` below).  Reads `data[i]` are `List.getD _ i 0`; the
  theorems stay within bounds, where this agrees with the source.
* JavaScript numbers are `Nat` (or `Int` where the source can see a negative
  value).  All integer arithmetic the source performs below 2^53 is exact in
  a JS double, so `Nat` arithmetic is faithful on the ranges the theorems
  quantify over.  Bit operations on guarded ranges are rendered
  arithmetically: `x & 0x7f` is `x % 128`, `x & 0xff` is `x % 256`,
  `(x >> 8) & 0xff` on a value below 2^32 is `x / 256 % 256`,
  `(x & 0x80) === 0` is `x / 128 % 2 = 0`, and so on; these coincide with
  the JS coercion semantics at every call site that is modelled.
* Functions that can `throw new EncodingError(offset, reason)` return
  `Except EncodingError _`; an error result models the exception
  propagating, with no buffer handed back to the caller.
-/

/-- EncodingError (src/error.ts): carries the byte offset and a reason. -/
structure EncodingError where
  offset : Nat
  reason : String
  deriving DecidableEq, Repr

deriving instance DecidableEq for Except

/-- Varint (src/encoding.ts): decode result, encoded size plus decoded value.
This is the instantiation at a plain JS number value. -/
structure Varint where
  size : Nat
  value : Nat
  deriving DecidableEq, Repr

/-- An n64 64-bit integer: a high/low 32-bit pair plus the class-level
signedness flag (`sign` is 0 on `U64` instances and 1 on `I64` instances). -/
structure N64 where
  hi : Nat
  lo : Nat
  sign : Bool
  deriving DecidableEq, Repr

/-- The numeric value of an n64 pair (used to state losslessness). -/
def N64.toNat (n : N64) : Nat := n.hi * 4294967296 + n.lo

/-- n64 `toInt` on the `hi = 0` paths used by the source: the low word. -/
def N64.toInt (n : N64) : Nat := n.lo

/-- `Number.MAX_SAFE_INTEGER` = 2^53 - 1. -/
def MAX_SAFE_INTEGER : Nat := 9007199254740991

/-- Buffer indexed assignment `dst[i] = v`: stores `v` coerced to a byte,
and is a no-op when `i` is out of range (Node `Buffer` semantics). -/
def setByte (l : List Nat) (i v : Nat) : List Nat := l.set i (v % 256)

/-- `data.readUInt32LE(off, true)`: little-endian 32-bit read. -/
def readUInt32LE (data : List Nat) (off : Nat) : Nat :=
  data.getD off 0 + 256 * data.getD (off + 1) 0 + 65536 * data.getD (off + 2) 0 +
    16777216 * data.getD (off + 3) 0

/-- Write a 32-bit word little-endian at `off` (the byte pattern written by
`writeInt32LE`/`writeUInt32LE`); returns the updated buffer and `off + 4`. -/
def writeUInt32LEb (dst : List Nat) (v : Nat) (off : Nat) : List Nat × Nat :=
  let d0 := setByte dst off v
  let d1 := setByte d0 (off + 1) (v / 256)
  let d2 := setByte d1 (off + 2) (v / 65536)
  let d3 := setByte d2 (off + 3) (v / 16777216)
  (d3, off + 4)

/-- Write a 32-bit word big-endian at `off`; returns buffer and `off + 4`. -/
def writeUInt32BEb (dst : List Nat) (v : Nat) (off : Nat) : List Nat × Nat :=
  let d0 := setByte dst off (v / 16777216)
  let d1 := setByte d0 (off + 1) (v / 65536)
  let d2 := setByte d1 (off + 2) (v / 256)
  let d3 := setByte d2 (off + 3) v
  (d3, off + 4)

/-- encoding.write64: split `num` into hi/lo 32-bit words (two's complement
for negatives) and write them as two 32-bit words, LE or BE. -/
def write64 (dst : List Nat) (num : Int) (off : Nat) (be : Bool) : List Nat × Nat :=
  let n : Nat := num.natAbs
  let hi0 : Nat := n / 4294967296 % 4294967296
  let lo0 : Nat := n % 4294967296
  let hl : Nat × Nat :=
    if num < 0 then
      if lo0 = 0 then ((4294967296 - hi0) % 4294967296, 0)
      else (4294967295 - hi0, 4294967296 - lo0)
    else (hi0, lo0)
  if be then
    let r0 := writeUInt32BEb dst hl.1 off
    writeUInt32BEb r0.1 hl.2 r0.2
  else
    let r0 := writeUInt32LEb dst hl.2 off
    writeUInt32LEb r0.1 hl.1 r0.2

/-- encoding.writeU64: write a JS number as uint64le. -/
def writeU64 (dst : List Nat) (num : Int) (off : Nat) : List Nat × Nat :=
  write64 dst num off false

/-- encoding.readU64: read uint64le as a JS number; throws
'Number exceeds 2^53-1' when `(hi & 0xffe00000) !== 0`. -/
def readU64 (data : List Nat) (off : Nat) : Except EncodingError Nat :=
  let hi := readUInt32LE data (off + 4)
  let lo := readUInt32LE data off
  if hi &&& 0xffe00000 = 0 then .ok (hi * 4294967296 + lo)
  else .error ⟨off, "Number exceeds 2^53-1"⟩

/-- encoding.readU64N: `U64.readLE(data, off)`, the extended-precision read. -/
def readU64N (data : List Nat) (off : Nat) : N64 :=
  ⟨readUInt32LE data (off + 4), readUInt32LE data off, false⟩

/-- n64 `writeLE`: low word then high word, each little-endian. -/
def N64.writeLE (num : N64) (dst : List Nat) (off : Nat) : List Nat × Nat :=
  let r0 := writeUInt32LEb dst num.lo off
  writeUInt32LEb r0.1 num.hi r0.2

/-- n64 `writeBE`: high word then low word, each big-endian. -/
def N64.writeBE (num : N64) (dst : List Nat) (off : Nat) : List Nat × Nat :=
  let r0 := writeUInt32BEb dst num.hi off
  writeUInt32BEb r0.1 num.lo r0.2

/-- encoding.writeU64N: rejects signed (I64) values, then `writeLE`. -/
def writeU64N (dst : List Nat) (num : N64) (off : Nat) :
    Except EncodingError (List Nat × Nat) :=
  if num.sign then .error ⟨off, "Signed"⟩ else .ok (num.writeLE dst off)

/-- encoding.writeU64BEN: rejects signed (I64) values, then `writeBE`. -/
def writeU64BEN (dst : List Nat) (num : N64) (off : Nat) :
    Except EncodingError (List Nat × Nat) :=
  if num.sign then .error ⟨off, "Signed"⟩ else .ok (num.writeBE dst off)

/-- encoding.writeI64N: rejects unsigned (U64) values, then `writeLE`. -/
def writeI64N (dst : List Nat) (num : N64) (off : Nat) :
    Except EncodingError (List Nat × Nat) :=
  if num.sign then .ok (num.writeLE dst off) else .error ⟨off, "Not signed"⟩

/-- encoding.writeI64BEN: rejects unsigned (U64) values, then `writeBE`. -/
def writeI64BEN (dst : List Nat) (num : N64) (off : Nat) :
    Except EncodingError (List Nat × Nat) :=
  if num.sign then .ok (num.writeBE dst off) else .error ⟨off, "Not signed"⟩

/-- encoding.sizeVarint: size of a scheme-A varint. -/
def sizeVarint (num : Nat) : Nat :=
  if num < 0xfd then 1
  else if num ≤ 0xffff then 3
  else if num ≤ 0xffffffff then 5
  else 9

/-- encoding.writeVarint: write a scheme-A varint at `off`; returns the
updated buffer and the new offset. -/
def writeVarint (dst : List Nat) (num : Nat) (off : Nat) : List Nat × Nat :=
  if num < 0xfd then
    (setByte dst off num, off + 1)
  else if num ≤ 0xffff then
    let d0 := setByte dst off 0xfd
    let d1 := setByte d0 (off + 1) num
    let d2 := setByte d1 (off + 2) (num / 256)
    (d2, off + 3)
  else if num ≤ 0xffffffff then
    let d0 := setByte dst off 0xfe
    let d1 := setByte d0 (off + 1) num
    let d2 := setByte d1 (off + 2) (num / 256)
    let d3 := setByte d2 (off + 3) (num / 65536)
    let d4 := setByte d3 (off + 4) (num / 16777216)
    (d4, off + 5)
  else
    let d0 := setByte dst off 0xff
    writeU64 d0 (num : Int) (off + 1)

/-- encoding.readVarint: decode a scheme-A varint, rejecting truncated input
and non-canonical long forms. -/
def readVarint (data : List Nat) (off : Nat) : Except EncodingError Varint :=
  if off < data.length then
    if data.getD off 0 = 0xff then
      if off + 9 ≤ data.length then
        match readU64 data (off + 1) with
        | .ok value =>
            if value > 0xffffffff then .ok ⟨9, value⟩
            else .error ⟨off, "Non-canonical varint"⟩
        | .error e => .error e
      else .error ⟨off, "Out of bounds read"⟩
    else if data.getD off 0 = 0xfe then
      if off + 5 ≤ data.length then
        let value := readUInt32LE data (off + 1)
        if value > 0xffff then .ok ⟨5, value⟩
        else .error ⟨off, "Non-canonical varint"⟩
      else .error ⟨off, "Out of bounds read"⟩
    else if data.getD off 0 = 0xfd then
      if off + 3 ≤ data.length then
        let value := data.getD (off + 1) 0 + 256 * data.getD (off + 2) 0
        if value ≥ 0xfd then .ok ⟨3, value⟩
        else .error ⟨off, "Non-canonical varint"⟩
      else .error ⟨off, "Out of bounds read"⟩
    else .ok ⟨1, data.getD off 0⟩
  else .error ⟨off, "Out of bounds read"⟩

/-- encoding.sizeVarintN: throws 'Signed' on an I64, else 9 bytes when the
high word is nonzero, else the number-valued size. -/
def sizeVarintN (num : N64) : Except EncodingError Nat :=
  if num.sign then .error ⟨0, "Signed"⟩
  else if num.hi ≠ 0 then .ok 9
  else .ok (sizeVarint num.toInt)

/-- encoding.writeVarintN: throws 'Signed' on an I64; a nonzero high word
takes the 0xff branch through writeU64N, else the number-valued writer. -/
def writeVarintN (dst : List Nat) (num : N64) (off : Nat) :
    Except EncodingError (List Nat × Nat) :=
  if num.sign then .error ⟨off, "Signed"⟩
  else if num.hi ≠ 0 then writeU64N (setByte dst off 0xff) num (off + 1)
  else .ok (writeVarint dst num.toInt off)

/-- The `tmp` array built by the encoding loop of encoding.writeVarint2 /
writeVarint2N, listed low index first: `tmp[len] = (num & 0x7f) | (len ?
0x80 : 0x00)`, looping with `num = ((num - (num % 0x80)) / 0x80) - 1` until
`num <= 0x7f`.  The or with 0x80 is addition (the operands' bits are
disjoint). -/
def writeVarint2Go (num : Nat) (len : Nat) : List Nat :=
  let b := num % 128 + (if len ≠ 0 then 128 else 0)
  if h : num ≤ 127 then [b]
  else b :: writeVarint2Go (num / 128 - 1) (len + 1)
termination_by num
decreasing_by
  have h1 : num / 128 < num := Nat.div_lt_self (by omega) (by omega)
  omega

/-- encoding.sizeVarint2: the same loop, counting iterations. -/
def sizeVarint2 (num : Nat) : Nat :=
  if h : num ≤ 127 then 1
  else 1 + sizeVarint2 (num / 128 - 1)
termination_by num
decreasing_by
  have h1 : num / 128 < num := Nat.div_lt_self (by omega) (by omega)
  omega

/-- Splice `bs` into `dst` at `off`.  Models the `do { dst[off++] = tmp[len] }
while (len--)` loop under the already-performed bounds check
`off + bs.length <= dst.length` (with the check in force each store lands in
range, so the splice is exact). -/
def writeBytesAt (dst : List Nat) (off : Nat) (bs : List Nat) : List Nat :=
  dst.take off ++ bs ++ dst.drop (off + bs.length)

/-- encoding.writeVarint2: build `tmp`, check `off + len + 1 <= dst.length`
(`check` raises 'Out of bounds read'), then store `tmp` reversed. -/
def writeVarint2 (dst : List Nat) (num : Nat) (off : Nat) :
    Except EncodingError (List Nat × Nat) :=
  let tmp := writeVarint2Go num 0
  if off + tmp.length ≤ dst.length then
    .ok (writeBytesAt dst off tmp.reverse, off + tmp.length)
  else .error ⟨off, "Out of bounds read"⟩

/-- The decode loop of encoding.readVarint2: reads bytes at `off`, failing
when input runs out, pre-checking `num <= 0x3fffffffffff - (ch & 0x7f)`
before accumulating, and applying the +1 offset under a continuation bit. -/
def readVarint2Go (data : List Nat) (off num size : Nat) :
    Except EncodingError Varint :=
  if h : off < data.length then
    let ch := data.getD off 0
    if num ≤ 0x3fffffffffff - ch % 128 then
      let num1 := num * 128 + ch % 128
      if ch / 128 % 2 = 0 then .ok ⟨size + 1, num1⟩
      else if num1 = MAX_SAFE_INTEGER then
        .error ⟨off + 1, "Number exceeds 2^53-1"⟩
      else readVarint2Go data (off + 1) (num1 + 1) (size + 1)
    else .error ⟨off + 1, "Number exceeds 2^53-1"⟩
  else .error ⟨off, "Out of bounds read"⟩
termination_by data.length - off
decreasing_by omega

/-- encoding.readVarint2: decode a scheme-B (offset-coded base-128) varint. -/
def readVarint2 (data : List Nat) (off : Nat) : Except EncodingError Varint :=
  readVarint2Go data off 0 0

/-- encoding.sizeVarint2N: throws 'Signed' on an I64; for a nonzero high
word the n64 loop (`ishrn(7).isubn(1)` on the pair) computes the same
iteration count as the number-valued loop on the pair's value. -/
def sizeVarint2N (num : N64) : Except EncodingError Nat :=
  if num.sign then .error ⟨0, "Signed"⟩
  else if num.hi = 0 then .ok (sizeVarint2 num.toInt)
  else .ok (sizeVarint2 num.toNat)

/-- encoding.writeVarint2N: throws 'Signed' on an I64; `hi = 0` delegates to
the number-valued writer, else the n64 loop builds the same `tmp` sequence
from the pair's value, with `enforce(off + len + 1 <= dst.length,
'Out of bounds write')`. -/
def writeVarint2N (dst : List Nat) (num : N64) (off : Nat) :
    Except EncodingError (List Nat × Nat) :=
  if num.sign then .error ⟨off, "Signed"⟩
  else if num.hi = 0 then writeVarint2 dst num.toInt off
  else
    let tmp := writeVarint2Go num.toNat 0
    if off + tmp.length ≤ dst.length then
      .ok (writeBytesAt dst off tmp.reverse, off + tmp.length)
    else .error ⟨off, "Out of bounds write"⟩

/-- `src.copy(dst, dstOff, srcStart, srcEnd)`: copy as many of the selected
source bytes as fit in `dst` starting at `dstOff`; returns the updated
buffer and the number of bytes copied. -/
def bufCopy (src dst : List Nat) (dstOff srcStart srcEnd : Nat) :
    List Nat × Nat :=
  let s := (src.take srcEnd).drop srcStart
  let n := min s.length (dst.length - dstOff)
  (dst.take dstOff ++ s.take n ++ dst.drop (dstOff + n), n)

/-- A queued deferred-write operation (writer.ts `WriteOp` records), limited
to the operation kinds the claims exercise: SEEK, UI8, VARINT, BYTES, STR,
CHECKSUM and FILL.  Strings are modelled by their encoded byte sequence, so
`Buffer.byteLength(value, enc)` is the list length. -/
inductive WriteOp where
  | seekOp (value : Nat)
  | u8 (value : Nat)
  | varint (value : Nat)
  | bytes (data : List Nat)
  | strOp (value : List Nat)
  | checksum (func : List Nat → List Nat)
  | fillOp (value : Nat) (size : Nat)

/-- BufferWriter (writer.ts): a queue of deferred operations plus the
accounted total size. -/
structure BufferWriter where
  ops : List WriteOp
  offset : Nat

/-- `new BufferWriter()`. -/
def BufferWriter.create : BufferWriter := ⟨[], 0⟩

/-- BufferWriter.seek. -/
def BufferWriter.seek (bw : BufferWriter) (offset : Nat) : BufferWriter :=
  ⟨bw.ops ++ [.seekOp offset], bw.offset + offset⟩

/-- BufferWriter.writeU8. -/
def BufferWriter.writeU8 (bw : BufferWriter) (value : Nat) : BufferWriter :=
  ⟨bw.ops ++ [.u8 value], bw.offset + 1⟩

/-- BufferWriter.writeVarint. -/
def BufferWriter.writeVarint (bw : BufferWriter) (value : Nat) : BufferWriter :=
  ⟨bw.ops ++ [.varint value], bw.offset + sizeVarint value⟩

/-- BufferWriter.writeBytes: empty input queues nothing. -/
def BufferWriter.writeBytes (bw : BufferWriter) (value : List Nat) : BufferWriter :=
  if value.length = 0 then bw
  else ⟨bw.ops ++ [.bytes value], bw.offset + value.length⟩

/-- BufferWriter.writeVarBytes: varint length op, then the bytes op unless
the payload is empty. -/
def BufferWriter.writeVarBytes (bw : BufferWriter) (value : List Nat) : BufferWriter :=
  let bw1 : BufferWriter :=
    ⟨bw.ops ++ [.varint value.length], bw.offset + sizeVarint value.length⟩
  if value.length = 0 then bw1
  else ⟨bw1.ops ++ [.bytes value], bw1.offset + value.length⟩

/-- BufferWriter.writeString: empty input queues nothing. -/
def BufferWriter.writeString (bw : BufferWriter) (value : List Nat) : BufferWriter :=
  if value.length = 0 then bw
  else ⟨bw.ops ++ [.strOp value], bw.offset + value.length⟩

/-- BufferWriter.writeVarString.  NOTE (faithful to the source): on an empty
string the VARINT 0 op is queued but `this.offset` is NOT advanced. -/
def BufferWriter.writeVarString (bw : BufferWriter) (value : List Nat) : BufferWriter :=
  if value.length = 0 then ⟨bw.ops ++ [.varint 0], bw.offset⟩
  else
    ⟨bw.ops ++ [.varint value.length, .strOp value],
      bw.offset + sizeVarint value.length + value.length⟩

/-- BufferWriter.writeChecksum. -/
def BufferWriter.writeChecksum (bw : BufferWriter) (func : List Nat → List Nat) :
    BufferWriter :=
  ⟨bw.ops ++ [.checksum func], bw.offset + 4⟩

/-- BufferWriter.fill: size-0 fill queues nothing. -/
def BufferWriter.fill (bw : BufferWriter) (value size : Nat) : BufferWriter :=
  if size = 0 then bw
  else ⟨bw.ops ++ [.fillOp value size], bw.offset + size⟩

/-- One dispatch step of BufferWriter.render's replay loop, acting on the
output buffer and replay cursor.  `Buffer.fill` range-checks its bounds
(Node raises a RangeError), every other step is total. -/
def renderStep (acc : List Nat × Nat) (op : WriteOp) :
    Except EncodingError (List Nat × Nat) :=
  match op with
  | .seekOp v => .ok (acc.1, acc.2 + v)
  | .u8 v => .ok (setByte acc.1 acc.2 v, acc.2 + 1)
  | .varint v => .ok (writeVarint acc.1 v acc.2)
  | .bytes b =>
      let r := bufCopy b acc.1 acc.2 0 b.length
      .ok (r.1, acc.2 + r.2)
  | .strOp s =>
      let r := bufCopy s acc.1 acc.2 0 s.length
      .ok (r.1, acc.2 + r.2)
  | .checksum f =>
      let r := bufCopy (f (acc.1.take acc.2)) acc.1 acc.2 0 4
      .ok (r.1, acc.2 + r.2)
  | .fillOp v n =>
      if acc.2 + n ≤ acc.1.length then
        .ok (acc.1.take acc.2 ++ List.replicate n (v % 256) ++ acc.1.drop (acc.2 + n),
          acc.2 + n)
      else .error ⟨acc.2, "RangeError"⟩

/-- BufferWriter.render: allocate `offset` bytes (`allocUnsafe`, modelled
zero-filled), replay the queue, and fail with 'Out of bounds write' when the
replay cursor does not land exactly on the end of the allocation. -/
def BufferWriter.render (bw : BufferWriter) : Except EncodingError (List Nat) := do
  let r ← bw.ops.foldlM renderStep (List.replicate bw.offset 0, 0)
  if r.2 = r.1.length then .ok r.1 else .error ⟨r.2, "Out of bounds write"⟩

/-- SizeWriter (sizewriter.ts): only the accumulated size. -/
structure SizeWriter where
  offset : Nat

/-- `new SizeWriter()`. -/
def SizeWriter.create : SizeWriter := ⟨0⟩

/-- SizeWriter.render: the accumulated size. -/
def SizeWriter.render (w : SizeWriter) : Nat := w.offset

/-- SizeWriter.seek. -/
def SizeWriter.seek (w : SizeWriter) (offset : Nat) : SizeWriter := ⟨w.offset + offset⟩

/-- SizeWriter.writeU8. -/
def SizeWriter.writeU8 (w : SizeWriter) (_value : Nat) : SizeWriter := ⟨w.offset + 1⟩

/-- SizeWriter.writeVarint. -/
def SizeWriter.writeVarint (w : SizeWriter) (value : Nat) : SizeWriter :=
  ⟨w.offset + sizeVarint value⟩

/-- SizeWriter.writeBytes. -/
def SizeWriter.writeBytes (w : SizeWriter) (value : List Nat) : SizeWriter :=
  ⟨w.offset + value.length⟩

/-- SizeWriter.writeVarBytes. -/
def SizeWriter.writeVarBytes (w : SizeWriter) (value : List Nat) : SizeWriter :=
  (w.writeVarint value.length).writeBytes value

/-- SizeWriter.writeString: empty input adds nothing. -/
def SizeWriter.writeString (w : SizeWriter) (value : List Nat) : SizeWriter :=
  if value.length = 0 then w else ⟨w.offset + value.length⟩

/-- SizeWriter.writeVarString: an empty string accounts exactly one byte. -/
def SizeWriter.writeVarString (w : SizeWriter) (value : List Nat) : SizeWriter :=
  if value.length = 0 then ⟨w.offset + 1⟩
  else ⟨(w.writeVarint value.length).offset + value.length⟩

/-- SizeWriter.writeChecksum. -/
def SizeWriter.writeChecksum (w : SizeWriter) (_func : List Nat → List Nat) :
    SizeWriter := ⟨w.offset + 4⟩

/-- SizeWriter.fill. -/
def SizeWriter.fill (w : SizeWriter) (_value size : Nat) : SizeWriter :=
  ⟨w.offset + size⟩

/-- StaticWriter (staticwriter.ts): a fixed buffer plus a cursor offset. -/
structure StaticWriter where
  data : List Nat
  offset : Nat
  deriving DecidableEq, Repr

/-- `new StaticWriter(size)`: `Buffer.allocUnsafe(size)` modelled
zero-filled, cursor at 0. -/
def StaticWriter.create (size : Nat) : StaticWriter := ⟨List.replicate size 0, 0⟩

/-- StaticWriter.render: fails with 'Out of bounds write' unless the cursor
landed exactly on the end of the buffer. -/
def StaticWriter.render (w : StaticWriter) : Except EncodingError (List Nat) :=
  if w.offset ≠ w.data.length then .error ⟨w.offset, "Out of bounds write"⟩
  else .ok w.data

/-- StaticWriter.slice: tolerates under-write, returning the written front
portion; fails only when the cursor passed the end. -/
def StaticWriter.slice (w : StaticWriter) : Except EncodingError (List Nat) :=
  if w.offset > w.data.length then .error ⟨w.offset, "Out of bounds write"⟩
  else .ok (w.data.take w.offset)

/-- StaticWriter.seek: relative, with no bounds check. -/
def StaticWriter.seek (w : StaticWriter) (offset : Nat) : StaticWriter :=
  ⟨w.data, w.offset + offset⟩

/-- StaticWriter.writeU8. -/
def StaticWriter.writeU8 (w : StaticWriter) (value : Nat) : StaticWriter :=
  ⟨setByte w.data w.offset value, w.offset + 1⟩

/-- Alias for encoding.writeVarint, usable inside the writer method whose
own name would otherwise shadow it. -/
def encodingWriteVarint : List Nat → Nat → Nat → List Nat × Nat := writeVarint

/-- StaticWriter.writeVarint: delegates to encoding.writeVarint. -/
def StaticWriter.writeVarint (w : StaticWriter) (value : Nat) : StaticWriter :=
  let r := encodingWriteVarint w.data value w.offset
  ⟨r.1, r.2⟩

/-- StaticWriter.writeBytes: `value.copy(this.data, this.offset)` then the
cursor advances by the full payload length. -/
def StaticWriter.writeBytes (w : StaticWriter) (value : List Nat) : StaticWriter :=
  if value.length = 0 then w
  else ⟨(bufCopy value w.data w.offset 0 value.length).1, w.offset + value.length⟩

/-- StaticWriter.writeVarBytes. -/
def StaticWriter.writeVarBytes (w : StaticWriter) (value : List Nat) : StaticWriter :=
  (w.writeVarint value.length).writeBytes value

/-- StaticWriter.writeString. -/
def StaticWriter.writeString (w : StaticWriter) (value : List Nat) : StaticWriter :=
  if value.length = 0 then w
  else ⟨(bufCopy value w.data w.offset 0 value.length).1, w.offset + value.length⟩

/-- StaticWriter.writeVarString: empty strings write just the 0 length. -/
def StaticWriter.writeVarString (w : StaticWriter) (value : List Nat) : StaticWriter :=
  if value.length = 0 then w.writeVarint 0
  else
    let w1 := w.writeVarint value.length
    ⟨(bufCopy value w1.data w1.offset 0 value.length).1, w1.offset + value.length⟩

/-- StaticWriter.writeChecksum: copy up to 4 digest bytes of
`hash(data.slice(0, offset))` at the cursor, then advance by 4. -/
def StaticWriter.writeChecksum (w : StaticWriter) (func : List Nat → List Nat) :
    StaticWriter :=
  ⟨(bufCopy (func (w.data.take w.offset)) w.data w.offset 0 4).1, w.offset + 4⟩

/-- staticwriter.ts POOLSIZE = 100 << 10. -/
def POOLSIZE : Nat := 100 <<< 10

/-- A half-open byte range `[start, stop)` of the shared pool slab. -/
structure PoolRange where
  start : Nat
  stop : Nat
  deriving DecidableEq, Repr

/-- The slab range addressed by `StaticWriter.pool(size)`: requests up to
POOLSIZE are served by `POOL.slice(0, size)`, a zero-copy view of bytes
`[0, size)` of the single shared slab; larger requests fall back to a
dedicated allocation that is not on the slab (`none`). -/
def poolRange (size : Nat) : Option PoolRange :=
  if size ≤ POOLSIZE then some ⟨0, size⟩ else none

/-- Two slab ranges overlap when some byte index lies in both. -/
def PoolRange.overlaps (a b : PoolRange) : Prop :=
  max a.start b.start < min a.stop b.stop

instance (a b : PoolRange) : Decidable (a.overlaps b) := by
  unfold PoolRange.overlaps; infer_instance

/-! ### Helper lemmas -/

theorem land_mask_eq_zero {x : Nat} (h : x < 2097152) : x &&& 0xffe00000 = 0 := by
  have h1 : x &&& 2097151 = x := by
    have h2 := Nat.and_pow_two_sub_one_eq_mod x 21
    norm_num at h2
    rw [h2, Nat.mod_eq_of_lt h]
  have hz : (2097151 : Nat) &&& 0xffe00000 = 0 := by decide
  calc x &&& 0xffe00000 = (x &&& 2097151) &&& 0xffe00000 := by rw [h1]
    _ = x &&& (2097151 &&& 0xffe00000) := Nat.and_assoc x 2097151 0xffe00000
    _ = x &&& 0 := by rw [hz]
    _ = 0 := Nat.and_zero x

theorem lt_of_land_mask_eq_zero {x : Nat} (hx : x < 4294967296)
    (h : x &&& 0xffe00000 = 0) : x < 2097152 := by
  have h32 : x &&& 4294967295 = x := by
    have h2 := Nat.and_pow_two_sub_one_eq_mod x 32
    norm_num at h2
    rw [h2, Nat.mod_eq_of_lt hx]
  have hsplit : (4294967295 : Nat) = 0xffe00000 ||| 2097151 := by decide
  have hx2 : x = (x &&& 0xffe00000) ||| (x &&& 2097151) := by
    rw [← Nat.and_or_distrib_left, ← hsplit, h32]
  rw [h, Nat.zero_or] at hx2
  have h21 := Nat.and_pow_two_sub_one_eq_mod x 21
  norm_num at h21
  rw [h21] at hx2
  omega

theorem four_byte_sum (v : Nat) :
    v % 256 + 256 * (v / 256 % 256) + 65536 * (v / 65536 % 256) +
      16777216 * (v / 16777216 % 256) = v % 4294967296 := by
  omega

/-- The byte list produced by `writeU64` at offset 0 into an 8-byte buffer:
the base-256 digits of the low and high 32-bit words. -/
theorem writeU64_bytes (v : Nat) :
    writeU64 (List.replicate 8 0) (v : Int) 0 =
      ([v % 4294967296 % 256, v % 4294967296 / 256 % 256,
        v % 4294967296 / 65536 % 256, v % 4294967296 / 16777216 % 256,
        v / 4294967296 % 4294967296 % 256, v / 4294967296 % 4294967296 / 256 % 256,
        v / 4294967296 % 4294967296 / 65536 % 256,
        v / 4294967296 % 4294967296 / 16777216 % 256], 8) := by
  have hneg : ¬((v : Int) < 0) := by omega
  simp [writeU64, write64, hneg, writeUInt32LEb, setByte, List.replicate, List.set]

/-- Round trip through the default-numeric 64-bit path for safe integers. -/
theorem readU64_writeU64 (v : Nat) (h : v ≤ MAX_SAFE_INTEGER) :
    readU64 (writeU64 (List.replicate 8 0) (v : Int) 0).1 0 = .ok v := by
  have h9 : v ≤ 9007199254740991 := by unfold MAX_SAFE_INTEGER at h; exact h
  have hhi0 : v / 4294967296 % 4294967296 = v / 4294967296 :=
    Nat.mod_eq_of_lt (by omega)
  rw [writeU64_bytes, hhi0]
  have hA := (four_byte_sum (v / 4294967296)).trans hhi0
  have hB := (four_byte_sum (v % 4294967296)).trans
    (Nat.mod_eq_of_lt (Nat.mod_lt v (by norm_num)))
  have hmask : v / 4294967296 &&& 0xffe00000 = 0 := by
    apply land_mask_eq_zero
    omega
  simp only [readU64, readUInt32LE, List.getD_cons_zero, List.getD_cons_succ]
  rw [hA, hB, hmask]
  have hvv : v / 4294967296 * 4294967296 + v % 4294967296 = v := by omega
  rw [if_pos rfl, hvv]

/-- The write cursor always advances by exactly `sizeVarint num`. -/
theorem writeVarint_offset (dst : List Nat) (num off : Nat) :
    (writeVarint dst num off).2 = off + sizeVarint num := by
  unfold writeVarint sizeVarint
  split_ifs <;> simp [writeU64, write64, writeUInt32LEb]

/-- Scheme-A varints round-trip for every safe integer. -/
theorem readVarint_roundtrip (v : Nat) (h : v ≤ MAX_SAFE_INTEGER) :
    readVarint (writeVarint (List.replicate (sizeVarint v) 0) v 0).1 0 =
      .ok ⟨sizeVarint v, v⟩ := by
  have h9 : v ≤ 9007199254740991 := by unfold MAX_SAFE_INTEGER at h; exact h
  by_cases h1 : v < 0xfd
  · have hs : sizeVarint v = 1 := by unfold sizeVarint; rw [if_pos h1]
    rw [hs]
    have hw : writeVarint (List.replicate 1 0) v 0 = ([v], 1) := by
      unfold writeVarint
      rw [if_pos h1]
      simp [setByte, List.replicate, List.set, Nat.mod_eq_of_lt (by omega : v < 256)]
    rw [hw]
    simp [readVarint, show v ≠ 255 by omega, show v ≠ 254 by omega,
      show v ≠ 253 by omega]
  · by_cases h2 : v ≤ 0xffff
    · have hs : sizeVarint v = 3 := by unfold sizeVarint; rw [if_neg h1, if_pos h2]
      rw [hs]
      have hw : writeVarint (List.replicate 3 0) v 0 =
          ([253, v % 256, v / 256 % 256], 3) := by
        unfold writeVarint
        rw [if_neg h1, if_pos h2]
        simp [setByte, List.replicate, List.set]
      rw [hw]
      have hval : v % 256 + 256 * (v / 256 % 256) = v := by omega
      simp only [readVarint, List.getD_cons_zero, List.getD_cons_succ, List.length_cons,
        List.length_nil]
      norm_num
      rw [hval]
      rw [if_pos (by omega : v ≥ 253)]
    · by_cases h3 : v ≤ 0xffffffff
      · have hs : sizeVarint v = 5 := by
          unfold sizeVarint; rw [if_neg h1, if_neg h2, if_pos h3]
        rw [hs]
        have hw : writeVarint (List.replicate 5 0) v 0 =
            ([254, v % 256, v / 256 % 256, v / 65536 % 256, v / 16777216 % 256], 5) := by
          unfold writeVarint
          rw [if_neg h1, if_neg h2, if_pos h3]
          simp [setByte, List.replicate, List.set]
        rw [hw]
        have hval : v % 256 + 256 * (v / 256 % 256) + 65536 * (v / 65536 % 256) +
            16777216 * (v / 16777216 % 256) = v := by
          have h4 := four_byte_sum v
          omega
        simp only [readVarint, readUInt32LE, List.getD_cons_zero, List.getD_cons_succ,
          List.length_cons, List.length_nil]
        norm_num
        rw [hval]
        rw [if_pos (by omega : v > 65535)]
      · have hs : sizeVarint v = 9 := by
          unfold sizeVarint; rw [if_neg h1, if_neg h2, if_neg h3]
        rw [hs]
        have hneg : ¬((v : Int) < 0) := by omega
        have hw : writeVarint (List.replicate 9 0) v 0 =
            (255 :: [v % 4294967296 % 256, v % 4294967296 / 256 % 256,
              v % 4294967296 / 65536 % 256, v % 4294967296 / 16777216 % 256,
              v / 4294967296 % 4294967296 % 256, v / 4294967296 % 4294967296 / 256 % 256,
              v / 4294967296 % 4294967296 / 65536 % 256,
              v / 4294967296 % 4294967296 / 16777216 % 256], 9) := by
          unfold writeVarint
          rw [if_neg h1, if_neg h2, if_neg h3]
          simp [writeU64, write64, hneg, writeUInt32LEb, setByte, List.replicate, List.set]
        rw [hw]
        have hhi0 : v / 4294967296 % 4294967296 = v / 4294967296 :=
          Nat.mod_eq_of_lt (by omega)
        rw [hhi0]
        have hA := (four_byte_sum (v / 4294967296)).trans hhi0
        have hB : v % 256 + 256 * (v % 4294967296 / 256 % 256) +
            65536 * (v % 4294967296 / 65536 % 256) +
            16777216 * (v % 4294967296 / 16777216 % 256) = v % 4294967296 := by
          have h5 := four_byte_sum (v % 4294967296)
          omega
        have hmask : v / 4294967296 &&& 0xffe00000 = 0 := by
          apply land_mask_eq_zero
          omega
        simp only [readVarint, readU64, readUInt32LE, List.getD_cons_zero,
          List.getD_cons_succ, List.length_cons, List.length_nil]
        norm_num
        rw [hA, hB, hmask]
        have hvv : v / 4294967296 * 4294967296 + v % 4294967296 = v := by omega
        rw [if_pos rfl, hvv]
        simp [show (4294967295 : Nat) < v by omega]

/-- A 0xfd long form whose 16-bit payload is below 0xfd is rejected. -/
theorem readVarint_reject_fd (data : List Nat) (off : Nat)
    (hlen : off + 3 ≤ data.length) (hb : data.getD off 0 = 0xfd)
    (hv : data.getD (off + 1) 0 + 256 * data.getD (off + 2) 0 < 0xfd) :
    readVarint data off = .error ⟨off, "Non-canonical varint"⟩ := by
  unfold readVarint
  rw [if_pos (by omega : off < data.length), hb,
    if_neg (by norm_num : ¬(253 : Nat) = 255),
    if_neg (by norm_num : ¬(253 : Nat) = 254),
    if_pos (rfl : (253 : Nat) = 253),
    if_pos hlen, if_neg (by omega)]

/-- A 0xfe long form whose 32-bit payload fits 16 bits is rejected. -/
theorem readVarint_reject_fe (data : List Nat) (off : Nat)
    (hlen : off + 5 ≤ data.length) (hb : data.getD off 0 = 0xfe)
    (hv : readUInt32LE data (off + 1) ≤ 0xffff) :
    readVarint data off = .error ⟨off, "Non-canonical varint"⟩ := by
  unfold readVarint
  rw [if_pos (by omega : off < data.length), hb,
    if_neg (by norm_num : ¬(254 : Nat) = 255),
    if_pos (rfl : (254 : Nat) = 254),
    if_pos hlen]
  rw [if_neg (by omega)]

/-- A 0xff long form whose 64-bit payload fits 32 bits is rejected. -/
theorem readVarint_reject_ff (data : List Nat) (off v : Nat)
    (hlen : off + 9 ≤ data.length) (hb : data.getD off 0 = 0xff)
    (hu : readU64 data (off + 1) = .ok v) (hv : v ≤ 0xffffffff) :
    readVarint data off = .error ⟨off, "Non-canonical varint"⟩ := by
  unfold readVarint
  rw [if_pos (by omega : off < data.length), hb,
    if_pos (rfl : (255 : Nat) = 255),
    if_pos hlen, hu]
  have hnv : ¬(v > 4294967295) := by omega
  simp [hnv]

/-- Claim C1: varint scheme A is canonical in both directions.  The encoder
advances by exactly `sizeVarint` bytes (one byte whenever the value is below
0xfd, and in general the shortest of the four forms, witnessed by the full
round trip over the safe-integer range); 252 encodes as the single byte 0xfc
and 253 as 0xfd 0xfd 0x00; and the decoder answers 'Non-canonical varint'
on every 0xfd-form below 0xfd, every 0xfe-form at or below 0xffff, and
every 0xff-form at or below 0xffffffff. -/
theorem claim_C1_varintA_canonical :
    (∀ dst num off, (writeVarint dst num off).2 = off + sizeVarint num)
    ∧ writeVarint [0] 252 0 = ([0xfc], 1)
    ∧ writeVarint [0, 0, 0] 253 0 = ([0xfd, 0xfd, 0x00], 3)
    ∧ (∀ v, v ≤ MAX_SAFE_INTEGER →
        readVarint (writeVarint (List.replicate (sizeVarint v) 0) v 0).1 0 =
          .ok ⟨sizeVarint v, v⟩)
    ∧ (∀ data off, off + 3 ≤ data.length → data.getD off 0 = 0xfd →
        data.getD (off + 1) 0 + 256 * data.getD (off + 2) 0 < 0xfd →
        readVarint data off = .error ⟨off, "Non-canonical varint"⟩)
    ∧ (∀ data off, off + 5 ≤ data.length → data.getD off 0 = 0xfe →
        readUInt32LE data (off + 1) ≤ 0xffff →
        readVarint data off = .error ⟨off, "Non-canonical varint"⟩)
    ∧ (∀ data off v, off + 9 ≤ data.length → data.getD off 0 = 0xff →
        readU64 data (off + 1) = .ok v → v ≤ 0xffffffff →
        readVarint data off = .error ⟨off, "Non-canonical varint"⟩) :=
  ⟨writeVarint_offset, by decide, by decide, readVarint_roundtrip,
    readVarint_reject_fd, readVarint_reject_fe, readVarint_reject_ff⟩

/-- Claim C1 witness: concrete instances of each quantified conjunct. -/
theorem claim_C1_witness :
    readVarint (writeVarint (List.replicate (sizeVarint 300) 0) 300 0).1 0 =
      .ok ⟨sizeVarint 300, 300⟩
    ∧ readVarint [0xfd, 0x10, 0x00] 0 = .error ⟨0, "Non-canonical varint"⟩
    ∧ readVarint [0xfe, 0xff, 0xff, 0, 0] 0 = .error ⟨0, "Non-canonical varint"⟩
    ∧ readVarint [0xff, 1, 0, 0, 0, 0, 0, 0, 0] 0 =
        .error ⟨0, "Non-canonical varint"⟩ :=
  ⟨claim_C1_varintA_canonical.2.2.2.1 300 (by decide),
    claim_C1_varintA_canonical.2.2.2.2.1 [0xfd, 0x10, 0x00] 0 (by norm_num)
      (by decide) (by decide),
    claim_C1_varintA_canonical.2.2.2.2.2.1 [0xfe, 0xff, 0xff, 0, 0] 0 (by norm_num)
      (by decide) (by decide),
    claim_C1_varintA_canonical.2.2.2.2.2.2 [0xff, 1, 0, 0, 0, 0, 0, 0, 0] 0 1
      (by norm_num) (by decide) (by decide) (by norm_num)⟩

/-- Claim C5: the default-numeric 64-bit path round-trips every safe integer
through writeU64/readU64; readU64 of any 8-byte little-endian encoding of a
value at or above 2^53 fails with 'Number exceeds 2^53-1'; and the maximum
unsigned 64-bit value is written by the extended-precision writer as eight
0xff bytes whose readU64N read is lossless while readU64 on the same bytes
fails with the precision error. -/
theorem claim_C5_u64_default_path :
    (∀ v : Nat, v ≤ MAX_SAFE_INTEGER →
      readU64 (writeU64 (List.replicate 8 0) (v : Int) 0).1 0 = .ok v)
    ∧ (∀ b0 b1 b2 b3 b4 b5 b6 b7 : Nat, b0 < 256 → b1 < 256 → b2 < 256 →
        b3 < 256 → b4 < 256 → b5 < 256 → b6 < 256 → b7 < 256 →
        9007199254740992 ≤ b0 + 256 * b1 + 65536 * b2 + 16777216 * b3 +
          4294967296 * b4 + 1099511627776 * b5 + 281474976710656 * b6 +
          72057594037927936 * b7 →
        readU64 [b0, b1, b2, b3, b4, b5, b6, b7] 0 =
          .error ⟨0, "Number exceeds 2^53-1"⟩)
    ∧ writeU64N (List.replicate 8 0) ⟨4294967295, 4294967295, false⟩ 0 =
        .ok (List.replicate 8 255, 8)
    ∧ (readU64N (List.replicate 8 255) 0).toNat = 18446744073709551615
    ∧ readU64 (List.replicate 8 255) 0 = .error ⟨0, "Number exceeds 2^53-1"⟩ := by
  refine ⟨readU64_writeU64, ?_, by decide, by decide, by decide⟩
  intro b0 b1 b2 b3 b4 b5 b6 b7 h0 h1 h2 h3 h4 h5 h6 h7 hv
  simp only [readU64, readUInt32LE, List.getD_cons_zero, List.getD_cons_succ]
  have hcond : ¬(b4 + 256 * b5 + 65536 * b6 + 16777216 * b7 &&& 0xffe00000 = 0) := by
    intro hc
    have hlt := lt_of_land_mask_eq_zero (by omega) hc
    omega
  rw [if_neg hcond]

/-- Claim C5 witness: concrete instances of the quantified conjuncts. -/
theorem claim_C5_witness :
    readU64 (writeU64 (List.replicate 8 0) ((5 : Nat) : Int) 0).1 0 = .ok 5
    ∧ readU64 [0, 0, 0, 0, 0, 0, 32, 0] 0 =
        .error ⟨0, "Number exceeds 2^53-1"⟩ :=
  ⟨claim_C5_u64_default_path.1 5 (by decide),
    claim_C5_u64_default_path.2.1 0 0 0 0 0 0 32 0 (by norm_num) (by norm_num)
      (by norm_num) (by norm_num) (by norm_num) (by norm_num) (by norm_num)
      (by norm_num) (by norm_num)⟩

/-- Claim C6: StaticWriter finalization.  render() fails with
'Out of bounds write' whenever the cursor differs from the buffer length
(under- or over-write alike), while slice() succeeds whenever the cursor is
at most the buffer length and returns exactly the first `offset` bytes. -/
theorem claim_C6_static_finalization (w : StaticWriter) :
    (w.offset ≠ w.data.length →
      w.render = .error ⟨w.offset, "Out of bounds write"⟩)
    ∧ (w.offset ≤ w.data.length → w.slice = .ok (w.data.take w.offset)) := by
  constructor
  · intro h
    unfold StaticWriter.render
    rw [if_pos h]
  · intro h
    unfold StaticWriter.slice
    rw [if_neg (by omega)]

/-- Claim C6 witness: an under-written writer of capacity 2 with one byte
written: render fails, slice returns the written front byte. -/
theorem claim_C6_witness :
    StaticWriter.render ⟨[7, 8], 1⟩ = .error ⟨1, "Out of bounds write"⟩
    ∧ StaticWriter.slice ⟨[7, 8], 1⟩ = .ok [7] :=
  ⟨(claim_C6_static_finalization ⟨[7, 8], 1⟩).1 (by decide),
    (claim_C6_static_finalization ⟨[7, 8], 1⟩).2 (by decide)⟩

/-- Claim C7 counterexample: two pool writers of sizes 1 and 2 (sum 3, far
below the 100 KiB pool capacity) both view the front of the same slab, so
their addressable ranges overlap, contradicting the claimed disjointness. -/
theorem claim_C7_counterexample :
    poolRange 1 = some ⟨0, 1⟩ ∧ poolRange 2 = some ⟨0, 2⟩
    ∧ 1 + 2 < POOLSIZE ∧ PoolRange.overlaps ⟨0, 1⟩ ⟨0, 2⟩ := by decide

/-- Claim C7 (amended): every pool-served StaticWriter addresses the range
[0, size) at the front of the shared slab, so the ranges of two pool writers
are disjoint exactly when at least one of the sizes is zero. -/
theorem claim_C7_pool_ranges (s1 s2 : Nat) (r1 r2 : PoolRange)
    (h1 : poolRange s1 = some r1) (h2 : poolRange s2 = some r2) :
    r1 = ⟨0, s1⟩ ∧ r2 = ⟨0, s2⟩
    ∧ (¬ r1.overlaps r2 ↔ s1 = 0 ∨ s2 = 0) := by
  unfold poolRange at h1 h2
  by_cases hc1 : s1 ≤ POOLSIZE
  · by_cases hc2 : s2 ≤ POOLSIZE
    · rw [if_pos hc1] at h1
      rw [if_pos hc2] at h2
      obtain rfl : r1 = ⟨0, s1⟩ := by injection h1 with hh; exact hh.symm
      obtain rfl : r2 = ⟨0, s2⟩ := by injection h2 with hh; exact hh.symm
      refine ⟨rfl, rfl, ?_⟩
      unfold PoolRange.overlaps
      simp only [Nat.max_self]
      omega
    · rw [if_neg hc2] at h2; cases h2
  · rw [if_neg hc1] at h1; cases h1

/-- Claim C7 amended witness: sizes 1 and 0 give disjoint ranges; the
equivalence applies at concrete inputs. -/
theorem claim_C7_witness :
    (⟨0, 1⟩ : PoolRange) = ⟨0, 1⟩ ∧ (⟨0, 0⟩ : PoolRange) = ⟨0, 0⟩
    ∧ (¬ PoolRange.overlaps ⟨0, 1⟩ ⟨0, 0⟩ ↔ 1 = 0 ∨ 0 = 0) :=
  claim_C7_pool_ranges 1 0 ⟨0, 1⟩ ⟨0, 0⟩ (by decide) (by decide)

/-- Claim C9 counterexample: seek has no bounds check, so a StaticWriter of
capacity 1 taken past the end by `seek 2` has offset 2 above its capacity,
contradicting the claimed cursor invariant. -/
theorem claim_C9_counterexample :
    ((StaticWriter.create 1).seek 2).data.length <
      ((StaticWriter.create 1).seek 2).offset := by decide

/-- Claim C9 (amended): the StaticWriter cursor can exceed the capacity
(seek is unchecked); the violation is detected at finalization instead:
whenever the offset exceeds the buffer length, both render() and slice()
fail with 'Out of bounds write'. -/
theorem claim_C9_overflow_detected (w : StaticWriter)
    (h : w.data.length < w.offset) :
    w.render = .error ⟨w.offset, "Out of bounds write"⟩
    ∧ w.slice = .error ⟨w.offset, "Out of bounds write"⟩ := by
  constructor
  · unfold StaticWriter.render
    rw [if_pos (by omega)]
  · unfold StaticWriter.slice
    rw [if_pos (by omega)]

/-- Claim C9 amended witness: the capacity-1 writer after `seek 2`. -/
theorem claim_C9_witness :
    ((StaticWriter.create 1).seek 2).render = .error ⟨2, "Out of bounds write"⟩
    ∧ ((StaticWriter.create 1).seek 2).slice = .error ⟨2, "Out of bounds write"⟩ :=
  claim_C9_overflow_detected ((StaticWriter.create 1).seek 2) (by decide)

/-- Claim C10: sign-flag enforcement on the extended-precision entry points.
With the signed flag set, writeU64N, writeU64BEN, writeVarintN, writeVarint2N,
sizeVarintN and sizeVarint2N fail with 'Signed'; without it, writeI64N and
writeI64BEN fail with 'Not signed'.  Each check precedes any store, so an
error propagates with no bytes written (the model returns no buffer). -/
theorem claim_C10_sign_flag (dst : List Nat) (off hi lo : Nat) :
    writeU64N dst ⟨hi, lo, true⟩ off = .error ⟨off, "Signed"⟩
    ∧ writeU64BEN dst ⟨hi, lo, true⟩ off = .error ⟨off, "Signed"⟩
    ∧ writeVarintN dst ⟨hi, lo, true⟩ off = .error ⟨off, "Signed"⟩
    ∧ writeVarint2N dst ⟨hi, lo, true⟩ off = .error ⟨off, "Signed"⟩
    ∧ sizeVarintN ⟨hi, lo, true⟩ = .error ⟨0, "Signed"⟩
    ∧ sizeVarint2N ⟨hi, lo, true⟩ = .error ⟨0, "Signed"⟩
    ∧ writeI64N dst ⟨hi, lo, false⟩ off = .error ⟨off, "Not signed"⟩
    ∧ writeI64BEN dst ⟨hi, lo, false⟩ off = .error ⟨off, "Not signed"⟩ := by
  refine ⟨?_, ?_, ?_, ?_, ?_, ?_, ?_, ?_⟩ <;>
    simp [writeU64N, writeU64BEN, writeVarintN, writeVarint2N, sizeVarintN,
      sizeVarint2N, writeI64N, writeI64BEN]

/-- Claim C3 (code divergence): BufferWriter.writeVarString on the empty
string queues the VARINT 0 operation without adding its one byte to the
accounted offset.  Replaying the queue then writes one byte past the
zero-byte allocation, so render() raises the internal accounting failure
'Out of bounds write' while SizeWriter.render() returns 1 for the identical
sequence. -/
theorem claim_C3_size_accounting_divergence :
    (SizeWriter.create.writeVarString []).render = 1
    ∧ (BufferWriter.create.writeVarString []).offset = 0
    ∧ (BufferWriter.create.writeVarString []).render =
        .error ⟨1, "Out of bounds write"⟩ := by decide

/-- Claim C4 (code divergence): zero-length var-prefixed writes produce the
single byte 0x00 on the Static and Size writers and on
BufferWriter.writeVarBytes, but BufferWriter.writeVarString with the empty
string fails to account the length byte, so rendering the one-operation
writer raises 'Out of bounds write' instead of yielding [0x00]. -/
theorem claim_C4_zero_length_var_writes :
    ((StaticWriter.create 1).writeVarBytes []).render = .ok [0]
    ∧ ((StaticWriter.create 1).writeVarString []).render = .ok [0]
    ∧ (BufferWriter.create.writeVarBytes []).render = .ok [0]
    ∧ (SizeWriter.create.writeVarBytes []).render = 1
    ∧ (SizeWriter.create.writeVarString []).render = 1
    ∧ (BufferWriter.create.writeVarString []).render =
        .error ⟨1, "Out of bounds write"⟩ := by decide

/-- Claim C8: checksum placement.  For any digest function producing at
least 4 bytes and any state with 4 bytes of room at the cursor, the replay
step for a CHECKSUM op (BufferWriter) and StaticWriter.writeChecksum place
exactly the first 4 bytes of the hash of the bytes before the cursor at the
cursor position, leave everything else unchanged, and advance the cursor by
exactly 4. -/
theorem claim_C8_checksum_placement (data : List Nat) (off : Nat)
    (f : List Nat → List Nat) (w : StaticWriter)
    (h1 : 4 ≤ (f (data.take off)).length) (h2 : off + 4 ≤ data.length)
    (h3 : 4 ≤ (f (w.data.take w.offset)).length) (h4 : w.offset + 4 ≤ w.data.length) :
    renderStep (data, off) (.checksum f) =
      .ok (data.take off ++ (f (data.take off)).take 4 ++ data.drop (off + 4), off + 4)
    ∧ (w.writeChecksum f).offset = w.offset + 4
    ∧ (w.writeChecksum f).data =
        w.data.take w.offset ++ (f (w.data.take w.offset)).take 4 ++
          w.data.drop (w.offset + 4) := by
  have key : ∀ (d : List Nat) (o : Nat) (g : List Nat → List Nat),
      4 ≤ (g (d.take o)).length → o + 4 ≤ d.length →
      bufCopy (g (d.take o)) d o 0 4 =
        (d.take o ++ (g (d.take o)).take 4 ++ d.drop (o + 4), 4) := by
    intro d o g hg hd
    unfold bufCopy
    simp only [List.drop_zero]
    have hlen : ((g (d.take o)).take 4).length = 4 := by
      rw [List.length_take]
      omega
    have hmin : min ((g (d.take o)).take 4).length (d.length - o) = 4 := by
      rw [hlen]
      omega
    rw [hmin]
    rw [List.take_take]
    norm_num
  refine ⟨?_, ?_, ?_⟩
  · simp only [renderStep]
    rw [key data off f h1 h2]
  · unfold StaticWriter.writeChecksum
    rfl
  · unfold StaticWriter.writeChecksum
    rw [key w.data w.offset f h3 h4]

/-- Claim C8 witness: a stub hash on concrete BufferWriter replay state and
StaticWriter state. -/
theorem claim_C8_witness :
    renderStep ([1, 2, 3, 0, 0, 0, 0], 3)
        (.checksum (fun l => [l.length, 170, 187, 204, 221])) =
      .ok ([1, 2, 3, 3, 170, 187, 204], 7)
    ∧ (StaticWriter.writeChecksum ⟨[9, 9, 0, 0, 0, 0], 2⟩
        (fun l => [l.length, 170, 187, 204, 221])).offset = 6
    ∧ (StaticWriter.writeChecksum ⟨[9, 9, 0, 0, 0, 0], 2⟩
        (fun l => [l.length, 170, 187, 204, 221])).data = [9, 9, 2, 170, 187, 204] := by
  have h := claim_C8_checksum_placement [1, 2, 3, 0, 0, 0, 0] 3
    (fun l => [l.length, 170, 187, 204, 221]) ⟨[9, 9, 0, 0, 0, 0], 2⟩
    (by decide) (by decide) (by decide) (by decide)
  refine ⟨?_, ?_, ?_⟩
  · rw [h.1]; decide
  · rw [h.2.1]
  · rw [h.2.2]; decide

/-- The encode loop's tmp array has exactly `sizeVarint2 num` entries. -/
theorem writeVarint2Go_length (num : Nat) : ∀ len,
    (writeVarint2Go num len).length = sizeVarint2 num := by
  induction num using Nat.strong_induction_on with
  | _ num ih =>
    intro len
    rw [writeVarint2Go, sizeVarint2]
    by_cases h : num ≤ 127
    · rw [dif_pos h, dif_pos h]
      rfl
    · rw [dif_neg h, dif_neg h]
      have hlt : num / 128 - 1 < num := by
        have h1 : num / 128 < num := Nat.div_lt_self (by omega) (by omega)
        omega
      simp [ih _ hlt]
      omega

/-- The position argument only distinguishes zero from nonzero (the 0x80
continuation flag), so all nonzero positions build the same tmp chain. -/
theorem writeVarint2Go_flag (num : Nat) : ∀ l1 l2, l1 ≠ 0 → l2 ≠ 0 →
    writeVarint2Go num l1 = writeVarint2Go num l2 := by
  induction num using Nat.strong_induction_on with
  | _ num ih =>
    intro l1 l2 h1 h2
    rw [writeVarint2Go]
    conv_rhs => rw [writeVarint2Go]
    by_cases h : num ≤ 127
    · rw [dif_pos h, dif_pos h]
      simp [h1, h2]
    · rw [dif_neg h, dif_neg h]
      have hlt : num / 128 - 1 < num := by
        have hx : num / 128 < num := Nat.div_lt_self (by omega) (by omega)
        omega
      rw [ih _ hlt (l1 + 1) (l2 + 1) (by omega) (by omega)]
      simp [h1, h2]

/-- Decoding the reversed continuation chain of `w` (every byte carries the
0x80 flag) from accumulator 0 leaves the decoder at accumulator `w + 1`,
positioned after the chain.  The bound keeps the decoder's conservative
overflow pre-check satisfied at every step. -/
theorem rv2_chain (w : Nat) (hw : w ≤ 70368744177663) :
    ∀ (pre post : List Nat) (size : Nat),
      readVarint2Go (pre ++ ((writeVarint2Go w 1).reverse ++ post)) pre.length 0 size
      = readVarint2Go (pre ++ ((writeVarint2Go w 1).reverse ++ post))
          (pre.length + (writeVarint2Go w 1).length) (w + 1)
          (size + (writeVarint2Go w 1).length) := by
  induction w using Nat.strong_induction_on with
  | _ w ih =>
    intro pre post size
    by_cases h : w ≤ 127
    · -- single chain byte w % 128 + 128 = w + 128
      have hb : writeVarint2Go w 1 = [w + 128] := by
        rw [writeVarint2Go]
        rw [dif_pos h]
        simp [Nat.mod_eq_of_lt (by omega : w < 128)]
      rw [hb]
      simp only [List.reverse_cons, List.reverse_nil, List.nil_append,
        List.length_cons, List.length_nil]
      conv_lhs => rw [readVarint2Go]
      have hlen : pre.length < (pre ++ ([w + 128] ++ post)).length := by
        simp [List.length_append]
      rw [dif_pos hlen]
      have hget : (pre ++ ([w + 128] ++ post)).getD pre.length 0 = w + 128 := by
        rw [List.getD_append_right _ _ _ _ (Nat.le_refl _)]
        simp
      rw [hget]
      dsimp only
      have hm : (w + 128) % 128 = w := by omega
      have hd : (w + 128) / 128 % 2 = 1 := by
        have : (w + 128) / 128 = 1 := by omega
        rw [this]
      rw [hm, hd]
      rw [if_pos (by omega : (0 : Nat) ≤ 70368744177663 - w)]
      rw [if_neg (by omega : ¬(1 : Nat) % 2 = 0)]
      have hmax : ¬(0 * 128 + w = MAX_SAFE_INTEGER) := by
        unfold MAX_SAFE_INTEGER; omega
      rw [if_neg hmax]
      norm_num
    · -- w > 127: first tmp byte w % 128 + 128, then the chain of w / 128 - 1
      have hw1 : w / 128 - 1 < w := by
        have hx : w / 128 < w := Nat.div_lt_self (by omega) (by omega)
        omega
      have hsplit : writeVarint2Go w 1 =
          (w % 128 + 128) :: writeVarint2Go (w / 128 - 1) 1 := by
        rw [writeVarint2Go]
        rw [dif_neg h]
        rw [writeVarint2Go_flag (w / 128 - 1) 2 1 (by omega) (by omega)]
        simp
      rw [hsplit]
      simp only [List.reverse_cons, List.length_cons, List.length_reverse,
        List.length_append]
      rw [List.append_assoc]
      rw [ih (w / 128 - 1) hw1 (by omega) pre (((w % 128 + 128) :: []) ++ post) size]
      rw [← List.append_assoc pre (writeVarint2Go (w / 128 - 1) 1).reverse
        (((w % 128 + 128) :: []) ++ post)]
      conv_lhs => rw [readVarint2Go]
      have hlen2 : pre.length + (writeVarint2Go (w / 128 - 1) 1).length <
          ((pre ++ (writeVarint2Go (w / 128 - 1) 1).reverse) ++
            (((w % 128 + 128) :: []) ++ post)).length := by
        simp [List.length_append]
      rw [dif_pos hlen2]
      have hget2 : ((pre ++ (writeVarint2Go (w / 128 - 1) 1).reverse) ++
          (((w % 128 + 128) :: []) ++ post)).getD
            (pre.length + (writeVarint2Go (w / 128 - 1) 1).length) 0
          = w % 128 + 128 := by
        rw [List.getD_append_right _ _ _ _ (by simp [List.length_append])]
        simp
      rw [hget2]
      dsimp only
      have hm2 : (w % 128 + 128) % 128 = w % 128 := by omega
      have hd2 : (w % 128 + 128) / 128 % 2 = 1 := by
        have hx : (w % 128 + 128) / 128 = 1 := by omega
        rw [hx]
      have hq : w / 128 - 1 + 1 = w / 128 := by omega
      rw [hm2, hd2, hq]
      rw [if_pos (by omega : w / 128 ≤ 70368744177663 - w % 128)]
      rw [if_neg (by omega : ¬(1 : Nat) % 2 = 0)]
      have hnum : w / 128 * 128 + w % 128 = w := by omega
      rw [hnum]
      have hmax2 : ¬(w = MAX_SAFE_INTEGER) := by unfold MAX_SAFE_INTEGER; omega
      rw [if_neg hmax2]
      have e1 : pre.length + ((writeVarint2Go (w / 128 - 1) 1).length + 1) =
          pre.length + (writeVarint2Go (w / 128 - 1) 1).length + 1 := by omega
      have e2 : size + ((writeVarint2Go (w / 128 - 1) 1).length + 1) =
          size + (writeVarint2Go (w / 128 - 1) 1).length + 1 := by omega
      rw [e1, e2]

/-- Claim C2 (amended): scheme-B varints round-trip, with size agreeing
with `sizeVarint2`, for every safe integer v whose final decode step passes
the decoder's conservative overflow pre-check, i.e.
v / 128 + v % 128 <= 0x3fffffffffff (this covers 300 and everything below
2^53 - 16256); the pre-check `num <= 0x3fffffffffff - (ch & 0x7f)` subtracts
the incoming 7 bits before comparing, so it also rejects some encodings of
values that do not exceed 2^53 - 1 (see the counterexample). -/
theorem claim_C2_varint2_roundtrip (v : Nat) (h1 : v ≤ MAX_SAFE_INTEGER)
    (h2 : v / 128 + v % 128 ≤ 70368744177663) :
    writeVarint2 (List.replicate (sizeVarint2 v) 0) v 0 =
      .ok ((writeVarint2Go v 0).reverse, sizeVarint2 v)
    ∧ readVarint2 ((writeVarint2Go v 0).reverse) 0 = .ok ⟨sizeVarint2 v, v⟩ := by
  have h9 : v ≤ 9007199254740991 := by unfold MAX_SAFE_INTEGER at h1; exact h1
  have hL := writeVarint2Go_length v 0
  constructor
  · unfold writeVarint2
    rw [if_pos (by simp [hL])]
    unfold writeBytesAt
    simp [hL]
  · by_cases hc : v ≤ 127
    · have hb : writeVarint2Go v 0 = [v] := by
        rw [writeVarint2Go]
        rw [dif_pos hc]
        simp [Nat.mod_eq_of_lt (by omega : v < 128)]
      have hs : sizeVarint2 v = 1 := by rw [sizeVarint2, dif_pos hc]
      rw [hb, hs]
      unfold readVarint2
      rw [readVarint2Go]
      rw [dif_pos (by simp)]
      have hget : ([v].reverse).getD 0 0 = v := by simp
      rw [hget]
      dsimp only
      have hm : v % 128 = v := by omega
      rw [hm]
      rw [if_pos (by omega : (0 : Nat) ≤ 70368744177663 - v)]
      rw [if_pos (by omega : v / 128 % 2 = 0)]
      norm_num
    · have hw1 : v / 128 - 1 ≤ 70368744177663 := by omega
      have hsplit : writeVarint2Go v 0 =
          (v % 128) :: writeVarint2Go (v / 128 - 1) 1 := by
        rw [writeVarint2Go]
        rw [dif_neg hc]
        simp
      have hs : sizeVarint2 v = (writeVarint2Go (v / 128 - 1) 1).length + 1 := by
        rw [← hL, hsplit]
        simp
      rw [hsplit, hs]
      simp only [List.reverse_cons]
      unfold readVarint2
      have hch := rv2_chain (v / 128 - 1) hw1 [] [v % 128] 0
      simp only [List.nil_append, List.length_nil] at hch
      rw [hch]
      rw [readVarint2Go]
      rw [dif_pos (by simp [List.length_append])]
      have hget : ((writeVarint2Go (v / 128 - 1) 1).reverse ++ [v % 128]).getD
          (0 + (writeVarint2Go (v / 128 - 1) 1).length) 0 = v % 128 := by
        rw [List.getD_append_right _ _ _ _ (by simp)]
        simp
      rw [hget]
      dsimp only
      have hmm : v % 128 % 128 = v % 128 := by omega
      have hq : v / 128 - 1 + 1 = v / 128 := by omega
      rw [hmm, hq]
      rw [if_pos (by omega : v / 128 ≤ 70368744177663 - v % 128)]
      rw [if_pos (by omega : v % 128 / 128 % 2 = 0)]
      have hnum : v / 128 * 128 + v % 128 = v := by omega
      rw [hnum]
      norm_num

/-- Claim C2 counterexample: v = 2^53 - 16129 is a safe integer (at or
below 2^53 - 1), writeVarint2 encodes it in 8 bytes, yet readVarint2 on
exactly those bytes fails with 'Number exceeds 2^53-1': the decoder does
not round-trip the whole safe range, and it rejects a value that does not
exceed 2^53 - 1. -/
theorem claim_C2_counterexample :
    (9007199254724863 : Nat) ≤ MAX_SAFE_INTEGER
    ∧ writeVarint2 (List.replicate 8 0) 9007199254724863 0 =
        .ok ([142, 254, 254, 254, 254, 254, 128, 127], 8)
    ∧ readVarint2 [142, 254, 254, 254, 254, 254, 128, 127] 0 =
        .error ⟨8, "Number exceeds 2^53-1"⟩ := by
  refine ⟨by decide, ?_, ?_⟩
  · simp [writeVarint2, writeVarint2Go, writeBytesAt, List.replicate]
  · simp [readVarint2, readVarint2Go, MAX_SAFE_INTEGER]

/-- Claim C2 witness: the amended round trip at v = 300 (the spec's own
offset-coding example), hypotheses discharged by computation. -/
theorem claim_C2_witness :
    writeVarint2 (List.replicate (sizeVarint2 300) 0) 300 0 =
      .ok ((writeVarint2Go 300 0).reverse, sizeVarint2 300)
    ∧ readVarint2 ((writeVarint2Go 300 0).reverse) 0 = .ok ⟨sizeVarint2 300, 300⟩ :=
  claim_C2_varint2_roundtrip 300 (by decide) (by decide)
